import Mathlib

/-!
Verification of the note.com article scraper (`src/note/scrape.ts`).

The script is shallow-embedded as pure Lean functions:
* external capabilities (browser navigation + DOM extraction, HTML→Markdown
  conversion, file writes) are oracles collected in an `Env` record, with
  thrown JS exceptions modelled as `Except.error` / `Option.some` error values;
* the output directory is a list of `(filename, content)` pairs, threaded
  through the per-article processing loop exactly as the script's
  `fs.existsSync` / `fs.writeFileSync` calls observe and mutate it;
* JS string primitives (`includes`, `endsWith`, `startsWith`, `trim`,
  `replace` with a single-character class, `padStart(2, '0')`) are
  re-implemented character by character.
-/

set_option autoImplicit false

namespace NoteScrape

/-- Does the first list start with the second one?  (haystack, needle). -/
def startsWithL : List Char → List Char → Bool
  | _, [] => true
  | [], _ :: _ => false
  | c :: cs, d :: ds => c == d && startsWithL cs ds

/-- Does `l` contain `p` as a contiguous run?  Models JS `String.includes`. -/
def hasSubL (p : List Char) : List Char → Bool
  | [] => startsWithL [] p
  | c :: t => startsWithL (c :: t) p || hasSubL p t

/-- JS `s.includes(q)`. -/
def jsIncludes (s q : String) : Bool := hasSubL q.data s.data

/-- JS `s.startsWith(p)`. -/
def jsStartsWith (s p : String) : Bool := startsWithL s.data p.data

/-- JS `s.endsWith(p)`: `p` is a suffix of `s`. -/
def jsEndsWith (s p : String) : Bool := startsWithL s.data.reverse p.data.reverse

/-- JS `s.trim()`: strip leading and trailing whitespace. -/
def jsTrim (s : String) : String :=
  String.mk (((s.data.dropWhile Char.isWhitespace).reverse.dropWhile Char.isWhitespace).reverse)

/-- The character class of the sanitizing regex `[\\/:*?"<>|]` (scrape.ts:115,160). -/
def forbiddenChars : List Char := ['\\', '/', ':', '*', '?', '"', '<', '>', '|']

/-- One character of `title.replace(/[\\/:*?"<>|]/g, '_')`. -/
def sanitizeChar (c : Char) : Char := if forbiddenChars.contains c then '_' else c

/-- `title.replace(/[\\/:*?"<>|]/g, '_')` — each matched character is replaced
by a single underscore, everything else is kept (scrape.ts:115,160). -/
def sanitize (s : String) : String := String.mk (s.data.map sanitizeChar)

/-- A discovered or supplied article pointer: the `{ url, title }` objects of
`articles` in scrape.ts (the spec's ArticleRef, `title` is the hint title). -/
structure ArticleRef where
  url : String
  title : String
  deriving DecidableEq, Repr

/-- The data extracted from a visited detail page (scrape.ts:134-154): the
spec's ArticleRecord. -/
structure ArticleRecord where
  title : String
  dateStr : String
  contentHtml : String
  deriving DecidableEq, Repr

/-- Outcome of processing one target of the loop at scrape.ts:113-177. -/
inductive Outcome where
  | skippedByTitle
  | skippedByFilename
  | saved
  | failed
  deriving DecidableEq, Repr

/-- The output directory: `(filename, content)` pairs in write order. -/
abbrev Files := List (String × String)

/-- Filenames present in a directory snapshot. -/
def namesOf (files : Files) : List String := files.map Prod.fst

/-- External capabilities of one run.  `fetch` is `page.goto` + the
`page.evaluate` extraction at scrape.ts:129-154 (it may throw);
`conv` is `turndownService.turndown`; `writeErr` reports a thrown
file-system error of `fs.writeFileSync` (`none` = success). -/
structure Env where
  fetch : String → Except String ArticleRecord
  conv : String → Except String String
  writeErr : String → String → Option String

/-- Argument loop of scrape.ts:29-37: `--url u` or a bare `http…` token is an
explicit URL, anything else is a query term.  A trailing `--url` with no
following token fails the `i + 1 < args.length` guard and falls through to
the query branch. -/
def parseArgs : List String → List String × List String
  | [] => ([], [])
  | [a] =>
      if jsStartsWith a "http" then ([a], [])
      else ([], [a])
  | a :: b :: rest =>
      if a == "--url" then
        let p := parseArgs rest
        (b :: p.1, p.2)
      else if jsStartsWith a "http" then
        let p := parseArgs (b :: rest)
        (a :: p.1, p.2)
      else
        let p := parseArgs (b :: rest)
        (p.1, a :: p.2)

/-- Target resolution of scrape.ts:46-106.  Discovery (the browser crawl) is
abstracted by the `allArticles` argument; explicit URLs get the sentinel
hint title `"URL Target"`. -/
def resolveArticles (targetUrls targetQueries : List String)
    (allArticles : List ArticleRef) : List ArticleRef :=
  if 0 < targetUrls.length then
    targetUrls.map (fun url => { url := url, title := "URL Target" })
  else if 0 < targetQueries.length then
    allArticles.filter (fun a =>
      targetQueries.any (fun q => jsIncludes a.title q || jsIncludes a.url q))
  else
    allArticles

/-- A rendered DOM element, as far as the extraction selectors can observe it:
tag name, class list, text content.  A document is its elements in document
order. -/
structure Element where
  tag : String
  classes : List String
  textContent : String
  deriving DecidableEq, Repr

/-- `h1.o-noteContentHeader__title`, the first selector of the title list. -/
def matchesPrimaryTitle (e : Element) : Bool :=
  e.tag == "h1" && e.classes.contains "o-noteContentHeader__title"

/-- The selector list
`h1.o-noteContentHeader__title, h1.m-noteHeader__title, .fn-note-title`
(scrape.ts:135): an element matches when it matches any member. -/
def matchesTitleSelector (e : Element) : Bool :=
  (e.tag == "h1" && e.classes.contains "o-noteContentHeader__title") ||
  (e.tag == "h1" && e.classes.contains "m-noteHeader__title") ||
  e.classes.contains "fn-note-title"

/-- `document.querySelector(titleSelector)?.textContent?.trim() || 'Untitled'`
(scrape.ts:136): `querySelector` with a selector list returns the first
element in document order matching any listed selector. -/
def extractTitle (doc : List Element) : String :=
  match doc.find? matchesTitleSelector with
  | none => "Untitled"
  | some e =>
      let t := jsTrim e.textContent
      if t == "" then "Untitled" else t

/-- Greedy `\d{1,2}` followed by the literal `sep`, with the regex engine's
backtracking: try two digits then `sep`, else one digit then `sep`.
Returns the matched digits and the rest of the input. -/
def matchNum12 (sep : Char) : List Char → Option (List Char × List Char)
  | d1 :: d2 :: s :: rest =>
      if d1.isDigit && d2.isDigit && s == sep then some ([d1, d2], rest)
      else if d1.isDigit && d2 == sep then some ([d1], s :: rest)
      else none
  | [d1, d2] =>
      if d1.isDigit && d2 == sep then some ([d1], []) else none
  | _ => none

/-- Match `(\d{4})年(\d{1,2})月(\d{1,2})日` at the head of the input,
returning the (year, month, day) digit groups. -/
def matchDateAt : List Char → Option (List Char × List Char × List Char)
  | y1 :: y2 :: y3 :: y4 :: s :: rest =>
      if y1.isDigit && y2.isDigit && y3.isDigit && y4.isDigit && s == '年' then
        match matchNum12 '月' rest with
        | some (m, rest2) =>
            match matchNum12 '日' rest2 with
            | some (d, _) => some ([y1, y2, y3, y4], m, d)
            | none => none
        | none => none
      else none
  | _ => none

/-- `bodyText.match(/(\d{4})年(\d{1,2})月(\d{1,2})日/)` (scrape.ts:140):
first position, scanning left to right, where the pattern matches. -/
def findDateMatch : List Char → Option (List Char × List Char × List Char)
  | [] => none
  | c :: rest =>
      match matchDateAt (c :: rest) with
      | some r => some r
      | none => findDateMatch rest

/-- JS `s.padStart(2, '0')`. -/
def padStart2 (s : String) : String :=
  if s.length ≥ 2 then s else if s.length = 1 then "0" ++ s else "00"

/-- Date extraction of scrape.ts:139-148: `${year}${month}${day}` with month
and day zero-padded, `"00000000"` when the pattern never matches. -/
def extractDate (bodyText : String) : String :=
  match findDateMatch bodyText.data with
  | some (y, m, d) => String.mk y ++ padStart2 (String.mk m) ++ padStart2 (String.mk d)
  | none => "00000000"

/-- The pre-fetch optimistic skip of scrape.ts:119-125: skip when the hint
title is not the sentinel `'URL Target'` and some snapshot filename ends
with `` `_${safeTitle}.md` ``. -/
def skipByTitle (existingFiles : List String) (article : ArticleRef) : Bool :=
  article.title != "URL Target" &&
  existingFiles.any (fun f => jsEndsWith f ("_" ++ sanitize article.title ++ ".md"))

/-- Filename derivation of scrape.ts:160-161:
`` `${data.dateStr}_${finalSafeTitle}.md` ``. -/
def deriveFilename (data : ArticleRecord) : String :=
  data.dateStr ++ "_" ++ sanitize data.title ++ ".md"

/-- The loop body of scrape.ts:113-177 for one target: pre-fetch title skip,
then (inside `try`/`catch`) fetch, exact-filename skip against the live
directory, conversion, write.  Any thrown error yields `Outcome.failed`
and leaves the directory unchanged. -/
def processArticle (env : Env) (existingFiles : List String) (files : Files)
    (article : ArticleRef) : Outcome × Files :=
  if skipByTitle existingFiles article then
    (Outcome.skippedByTitle, files)
  else
    match env.fetch article.url with
    | Except.error _ => (Outcome.failed, files)
    | Except.ok data =>
        let filename := deriveFilename data
        if files.any (fun p => p.1 == filename) then
          (Outcome.skippedByFilename, files)
        else
          match env.conv data.contentHtml with
          | Except.error _ => (Outcome.failed, files)
          | Except.ok markdown =>
              let fileContent := "# " ++ data.title ++ "\n\n" ++ markdown
              match env.writeErr filename fileContent with
              | some _ => (Outcome.failed, files)
              | none => (Outcome.saved, files ++ [(filename, fileContent)])

/-- The whole `for (const article of articles)` loop, threading the output
directory; `existingFiles` is the snapshot taken once before the loop. -/
def runArticles (env : Env) (existingFiles : List String) :
    Files → List ArticleRef → List Outcome × Files
  | files, [] => ([], files)
  | files, a :: rest =>
      let r := processArticle env existingFiles files a
      let rr := runArticles env existingFiles r.2 rest
      (r.1 :: rr.1, rr.2)

/-- One run over a resolved target list: take the `fs.readdirSync` snapshot
(scrape.ts:110), then process every target. -/
def runMain (env : Env) (files : Files) (articles : List ArticleRef) :
    List Outcome × Files :=
  runArticles env (namesOf files) files articles

/-- The whole pipeline for fixed inputs: resolve targets (with the discovered
list abstracted as `discovered`), then run. -/
def pipeline (env : Env) (targetUrls targetQueries : List String)
    (discovered : List ArticleRef) (files : Files) : List Outcome × Files :=
  runMain env files (resolveArticles targetUrls targetQueries discovered)

/-! Concrete fixtures used by counterexamples and witnesses. -/

/-- A heading that matches only the second title selector. -/
def cexElem : Element := { tag := "h1", classes := ["m-noteHeader__title"], textContent := "Real" }

/-- A document whose first title-selector match (the primary heading) has
whitespace-only text, while a later secondary heading has non-empty text. -/
def cexDoc : List Element :=
  [{ tag := "h1", classes := ["o-noteContentHeader__title"], textContent := " " }, cexElem]

/-- A document with no primary heading and one secondary heading. -/
def docW : List Element :=
  [{ tag := "div", classes := ["x"], textContent := "note" },
   { tag := "h1", classes := ["m-noteHeader__title"], textContent := "  Second Title " }]

/-- An environment whose every fetch succeeds with a fixed record. -/
def env1 : Env where
  fetch := fun _ => Except.ok { title := "T", dateStr := "20230101", contentHtml := "b" }
  conv := Except.ok
  writeErr := fun _ _ => none

/-- An environment in which only the fetch of `"u2"` throws. -/
def envFail : Env where
  fetch := fun u =>
    if u == "u2" then Except.error "boom"
    else Except.ok { title := "T" ++ u, dateStr := "20230101", contentHtml := "b" }
  conv := Except.ok
  writeErr := fun _ _ => none

/-- An environment in which every fetch succeeds but conversion of the second
article's body throws. -/
def envConvFail : Env where
  fetch := fun u => Except.ok { title := "T" ++ u, dateStr := "20230101", contentHtml := u }
  conv := fun s => if s == "u2" then Except.error "convboom" else Except.ok s
  writeErr := fun _ _ => none

/-- An environment in which fetch and conversion succeed but the write of the
second article's file throws. -/
def envWriteFail : Env where
  fetch := fun u => Except.ok { title := "T" ++ u, dateStr := "20230101", contentHtml := "b" }
  conv := Except.ok
  writeErr := fun fn _ => if fn == "20230101_Tu2.md" then some "writeboom" else none

/-- An environment whose fetch yields a record with empty content. -/
def env9 : Env where
  fetch := fun _ => Except.ok { title := "T", dateStr := "00000000", contentHtml := "" }
  conv := Except.ok
  writeErr := fun _ _ => none

/-! ## Supporting lemmas -/

theorem names_any_iff (files : Files) (n : String) :
    files.any (fun p => p.1 == n) = true ↔ n ∈ namesOf files := by
  simp [namesOf, List.any_eq_true, List.mem_map]

theorem string_append_empty (s : String) : s ++ "" = s := by
  apply String.ext
  rw [String.data_append]
  simp

/-! ## C4 — filename determinism and sanitization -/

/-- C4: filename derivation is the pure function
`{dateStamp}_{sanitizedTitle}.md` of the record, and sanitization replaces
exactly the characters of the forbidden set by `_`, position by position,
leaving every other character unchanged. -/
theorem filename_sanitize_spec :
    (∀ r : ArticleRecord, deriveFilename r = r.dateStr ++ "_" ++ sanitize r.title ++ ".md") ∧
    (∀ s : String, List.Forall₂
      (fun a b => b = if forbiddenChars.contains a then '_' else a)
      s.data (sanitize s).data) ∧
    sanitize "a\\b/c:d*e?f\"g<h>i|j" = "a_b_c_d_e_f_g_h_i_j" := by
  refine ⟨fun _ => rfl, fun s => ?_, by decide⟩
  show List.Forall₂ _ s.data (s.data.map sanitizeChar)
  induction s.data with
  | nil => exact List.Forall₂.nil
  | cons c cs ih => exact List.Forall₂.cons rfl ih

/-! ## C5 — title fallback ordering (corrected) -/

/-- C5 counterexample: the claim says extraction returns the first non-empty
match across the selector list and defaults to `"Untitled"` only when no
selector yields a non-empty match.  In `cexDoc` the secondary selector
matches the non-empty heading `cexElem`, yet extraction returns
`"Untitled"`, because `querySelector` with a selector list returns the
first matching element in document order (here the whitespace-only primary
heading) and its empty trimmed text falls back to the default. -/
theorem title_first_nonempty_cex :
    cexElem ∈ cexDoc ∧ matchesTitleSelector cexElem = true ∧
    jsTrim cexElem.textContent = "Real" ∧
    extractTitle cexDoc = "Untitled" := by decide

/-- C5 amended: extraction returns the trimmed text of the first element in
document order matching any title selector, when that text is non-empty;
in particular, when the primary selector matches nothing and a secondary
selector provides the first match with non-empty trimmed text, extraction
returns that trimmed text (never the default). -/
theorem title_fallback_amended (doc : List Element) (e : Element)
    (_hp : ∀ x ∈ doc, matchesPrimaryTitle x = false)
    (hf : doc.find? matchesTitleSelector = some e)
    (ht : jsTrim e.textContent ≠ "") :
    extractTitle doc = jsTrim e.textContent := by
  unfold extractTitle
  rw [hf]
  simp [ht]

/-- C5 witness: a document with no primary heading whose secondary heading
carries (padded) text `"  Second Title "`. -/
theorem title_fallback_amended_witness : extractTitle docW = "Second Title" := by
  have h := title_fallback_amended docW
    { tag := "h1", classes := ["m-noteHeader__title"], textContent := "  Second Title " }
    (by decide) (by decide) (by decide)
  exact h.trans (by decide)

/-! ## C6 — date extraction -/

theorem matchNum12_digits {sep : Char} {l m rest : List Char}
    (h : matchNum12 sep l = some (m, rest)) :
    m.all Char.isDigit = true ∧ (m.length = 1 ∨ m.length = 2) := by
  cases l with
  | nil => simp [matchNum12] at h
  | cons d1 t =>
    cases t with
    | nil => simp [matchNum12] at h
    | cons d2 t2 =>
      cases t2 with
      | nil =>
        simp only [matchNum12] at h
        split at h
        · rename_i hcond
          rw [Bool.and_eq_true] at hcond
          simp only [Option.some.injEq, Prod.mk.injEq] at h
          obtain ⟨h1, _⟩ := h
          subst h1
          simp [hcond.1]
        · exact absurd h (by simp)
      | cons s t3 =>
        simp only [matchNum12] at h
        split at h
        · rename_i hcond
          rw [Bool.and_eq_true, Bool.and_eq_true] at hcond
          simp only [Option.some.injEq, Prod.mk.injEq] at h
          obtain ⟨h1, _⟩ := h
          subst h1
          simp [hcond.1.1, hcond.1.2]
        · split at h
          · rename_i hcond
            rw [Bool.and_eq_true] at hcond
            simp only [Option.some.injEq, Prod.mk.injEq] at h
            obtain ⟨h1, _⟩ := h
            subst h1
            simp [hcond.1]
          · exact absurd h (by simp)

theorem matchDateAt_digits {l y m d : List Char}
    (h : matchDateAt l = some (y, m, d)) :
    (y.length = 4 ∧ y.all Char.isDigit = true) ∧
    (m.all Char.isDigit = true ∧ (m.length = 1 ∨ m.length = 2)) ∧
    (d.all Char.isDigit = true ∧ (d.length = 1 ∨ d.length = 2)) := by
  cases l with
  | nil => simp [matchDateAt] at h
  | cons y1 t1 =>
  cases t1 with
  | nil => simp [matchDateAt] at h
  | cons y2 t2 =>
  cases t2 with
  | nil => simp [matchDateAt] at h
  | cons y3 t3 =>
  cases t3 with
  | nil => simp [matchDateAt] at h
  | cons y4 t4 =>
  cases t4 with
  | nil => simp [matchDateAt] at h
  | cons s rest =>
    simp only [matchDateAt] at h
    split at h
    · rename_i hcond
      rw [Bool.and_eq_true, Bool.and_eq_true, Bool.and_eq_true, Bool.and_eq_true] at hcond
      cases hm : matchNum12 '月' rest with
      | none => rw [hm] at h; exact absurd h (by simp)
      | some p =>
        obtain ⟨mm, rest2⟩ := p
        rw [hm] at h
        dsimp only at h
        cases hd : matchNum12 '日' rest2 with
        | none => rw [hd] at h; exact absurd h (by simp)
        | some p2 =>
          obtain ⟨dd, rest3⟩ := p2
          rw [hd] at h
          simp only [Option.some.injEq, Prod.mk.injEq] at h
          obtain ⟨hy, hm2, hd2⟩ := h
          subst hy; subst hm2; subst hd2
          refine ⟨⟨rfl, ?_⟩, matchNum12_digits hm, matchNum12_digits hd⟩
          simp [hcond.1.1.1.1, hcond.1.1.1.2, hcond.1.1.2, hcond.1.2]
    · exact absurd h (by simp)

theorem findDateMatch_digits : ∀ {l y m d : List Char},
    findDateMatch l = some (y, m, d) →
    (y.length = 4 ∧ y.all Char.isDigit = true) ∧
    (m.all Char.isDigit = true ∧ (m.length = 1 ∨ m.length = 2)) ∧
    (d.all Char.isDigit = true ∧ (d.length = 1 ∨ d.length = 2)) := by
  intro l
  induction l with
  | nil => intro y m d h; simp [findDateMatch] at h
  | cons c rest ih =>
    intro y m d h
    simp only [findDateMatch] at h
    cases hma : matchDateAt (c :: rest) with
    | some r =>
      rw [hma] at h
      simp only [Option.some.injEq] at h
      subst h
      exact matchDateAt_digits hma
    | none =>
      rw [hma] at h
      exact ih h

theorem padStart2_spec {s : String} (hd : s.data.all Char.isDigit = true)
    (hl : s.length = 1 ∨ s.length = 2) :
    (padStart2 s).data.length = 2 ∧ (padStart2 s).data.all Char.isDigit = true := by
  unfold padStart2
  rcases hl with h1 | h2
  · rw [if_neg (by omega), if_pos h1]
    rw [String.data_append]
    constructor
    · show ("0".data ++ s.data).length = 2
      have : s.data.length = 1 := h1
      simp [this]
    · simp [hd]
  · rw [if_pos (by omega)]
    exact ⟨h2, hd⟩

/-- C6: the extracted date stamp is always exactly 8 digit characters
(`\d{4}` year, month and day zero-padded to width 2), text containing
`2023年5月3日` yields `"20230503"`, and text with no occurrence of the
date pattern yields the default `"00000000"`. -/
theorem date_extraction_spec (t : String) :
    ((extractDate t).length = 8 ∧ (extractDate t).data.all Char.isDigit = true) ∧
    extractDate "posted on 2023年5月3日!" = "20230503" ∧
    extractDate "no date here" = "00000000" := by
  refine ⟨?_, by decide, by decide⟩
  unfold extractDate
  cases hf : findDateMatch t.data with
  | none => exact ⟨by decide, by decide⟩
  | some r =>
    obtain ⟨y, m, d⟩ := r
    obtain ⟨⟨hy1, hy2⟩, hm, hd⟩ := findDateMatch_digits hf
    obtain ⟨hm1, hm2⟩ := @padStart2_spec (String.mk m) hm.1 hm.2
    obtain ⟨hd1, hd2⟩ := @padStart2_spec (String.mk d) hd.1 hd.2
    constructor
    · show (String.mk y ++ padStart2 (String.mk m) ++ padStart2 (String.mk d)).data.length = 8
      rw [String.data_append, String.data_append]
      simp only [List.length_append]
      have hy : (String.mk y).data.length = 4 := hy1
      simp only [String] at hy ⊢
      omega
    · show (String.mk y ++ padStart2 (String.mk m) ++ padStart2 (String.mk d)).data.all Char.isDigit = true
      rw [String.data_append, String.data_append]
      simp [List.all_append, hy2, hm2, hd2]

/-! ## C8 — query filtering -/

/-- C8: with query terms and no explicit URLs, the resolved targets are
exactly the discovered refs whose hint title or URL contains some term as
a substring, in discovery order (a sublist of the discovered list); on
titles `Alpha`, `Beta`, `Gamma Alpha` with term `Alpha` the result is
exactly the first and third refs, in order. -/
theorem query_filtering (qs : List String) (arts : List ArticleRef) (hq : qs ≠ []) :
    List.Sublist (resolveArticles [] qs arts) arts ∧
    (∀ a : ArticleRef, a ∈ resolveArticles [] qs arts ↔
      a ∈ arts ∧ qs.any (fun q => jsIncludes a.title q || jsIncludes a.url q) = true) ∧
    resolveArticles [] ["Alpha"]
        [{ url := "u1", title := "Alpha" }, { url := "u2", title := "Beta" },
         { url := "u3", title := "Gamma Alpha" }] =
      [{ url := "u1", title := "Alpha" }, { url := "u3", title := "Gamma Alpha" }] := by
  have hres : resolveArticles [] qs arts =
      arts.filter (fun a => qs.any (fun q => jsIncludes a.title q || jsIncludes a.url q)) := by
    unfold resolveArticles
    rw [if_neg (by simp), if_pos (by simpa using List.length_pos.mpr hq)]
  refine ⟨?_, ?_, by decide⟩
  · rw [hres]; exact List.filter_sublist _
  · intro a; rw [hres]; simp [List.mem_filter]

/-- C8 witness at the concrete discovered list of the claim. -/
theorem query_filtering_witness :
    List.Sublist
      (resolveArticles [] ["Alpha"]
        [{ url := "u1", title := "Alpha" }, { url := "u2", title := "Beta" },
         { url := "u3", title := "Gamma Alpha" }])
      [{ url := "u1", title := "Alpha" }, { url := "u2", title := "Beta" },
       { url := "u3", title := "Gamma Alpha" }] ∧
    resolveArticles [] ["Alpha"]
        [{ url := "u1", title := "Alpha" }, { url := "u2", title := "Beta" },
         { url := "u3", title := "Gamma Alpha" }] =
      [{ url := "u1", title := "Alpha" }, { url := "u3", title := "Gamma Alpha" }] := by
  obtain ⟨h1, _, h3⟩ := query_filtering ["Alpha"]
    [{ url := "u1", title := "Alpha" }, { url := "u2", title := "Beta" },
     { url := "u3", title := "Gamma Alpha" }] (by decide)
  exact ⟨h1, h3⟩

/-! ## Processor shape lemmas -/

theorem processArticle_titleSkip {env : Env} {exF : List String} {files : Files}
    {a : ArticleRef} (h : skipByTitle exF a = true) :
    processArticle env exF files a = (Outcome.skippedByTitle, files) := by
  simp [processArticle, h]

theorem processArticle_fetchErr {env : Env} {exF : List String} {files : Files}
    {a : ArticleRef} {msg : String} (h1 : skipByTitle exF a = false)
    (h2 : env.fetch a.url = Except.error msg) :
    processArticle env exF files a = (Outcome.failed, files) := by
  simp [processArticle, h1, h2]

theorem processArticle_fileSkip {env : Env} {exF : List String} {files : Files}
    {a : ArticleRef} {data : ArticleRecord} (h1 : skipByTitle exF a = false)
    (h2 : env.fetch a.url = Except.ok data)
    (h3 : files.any (fun p => p.1 == deriveFilename data) = true) :
    processArticle env exF files a = (Outcome.skippedByFilename, files) := by
  simp [processArticle, h1, h2, h3]

theorem processArticle_convErr {env : Env} {exF : List String} {files : Files}
    {a : ArticleRef} {data : ArticleRecord} {msg : String}
    (h1 : skipByTitle exF a = false) (h2 : env.fetch a.url = Except.ok data)
    (h3 : files.any (fun p => p.1 == deriveFilename data) = false)
    (h4 : env.conv data.contentHtml = Except.error msg) :
    processArticle env exF files a = (Outcome.failed, files) := by
  simp [processArticle, h1, h2, h3, h4]

theorem processArticle_writeFail {env : Env} {exF : List String} {files : Files}
    {a : ArticleRef} {data : ArticleRecord} {md msg : String}
    (h1 : skipByTitle exF a = false) (h2 : env.fetch a.url = Except.ok data)
    (h3 : files.any (fun p => p.1 == deriveFilename data) = false)
    (h4 : env.conv data.contentHtml = Except.ok md)
    (h5 : env.writeErr (deriveFilename data) ("# " ++ data.title ++ "\n\n" ++ md) = some msg) :
    processArticle env exF files a = (Outcome.failed, files) := by
  simp [processArticle, h1, h2, h3, h4, h5]

theorem processArticle_saves {env : Env} {exF : List String} {files : Files}
    {a : ArticleRef} {data : ArticleRecord} {md : String}
    (h1 : skipByTitle exF a = false) (h2 : env.fetch a.url = Except.ok data)
    (h3 : files.any (fun p => p.1 == deriveFilename data) = false)
    (h4 : env.conv data.contentHtml = Except.ok md)
    (h5 : env.writeErr (deriveFilename data) ("# " ++ data.title ++ "\n\n" ++ md) = none) :
    processArticle env exF files a =
      (Outcome.saved, files ++ [(deriveFilename data, "# " ++ data.title ++ "\n\n" ++ md)]) := by
  simp [processArticle, h1, h2, h3, h4, h5]

/-- Every branch of the loop body either leaves the directory unchanged or
appends exactly one file whose name was not present before the write. -/
theorem processArticle_cases (env : Env) (exF : List String) (files : Files)
    (a : ArticleRef) :
    (processArticle env exF files a).2 = files ∨
    ∃ fn c, (processArticle env exF files a).2 = files ++ [(fn, c)] ∧
      files.any (fun p => p.1 == fn) = false := by
  cases hst : skipByTitle exF a with
  | true => exact Or.inl (by rw [processArticle_titleSkip hst])
  | false =>
    cases hf : env.fetch a.url with
    | error msg => exact Or.inl (by rw [processArticle_fetchErr hst hf])
    | ok data =>
      cases hex : files.any (fun p => p.1 == deriveFilename data) with
      | true => exact Or.inl (by rw [processArticle_fileSkip hst hf hex])
      | false =>
        cases hc : env.conv data.contentHtml with
        | error msg => exact Or.inl (by rw [processArticle_convErr hst hf hex hc])
        | ok md =>
          cases hw : env.writeErr (deriveFilename data) ("# " ++ data.title ++ "\n\n" ++ md) with
          | some msg => exact Or.inl (by rw [processArticle_writeFail hst hf hex hc hw])
          | none =>
            exact Or.inr ⟨deriveFilename data, "# " ++ data.title ++ "\n\n" ++ md,
              by rw [processArticle_saves hst hf hex hc hw], hex⟩

theorem runArticles_nil (env : Env) (exF : List String) (files : Files) :
    runArticles env exF files [] = ([], files) := rfl

theorem runArticles_cons (env : Env) (exF : List String) (files : Files)
    (a : ArticleRef) (rest : List ArticleRef) :
    runArticles env exF files (a :: rest) =
      ((processArticle env exF files a).1 ::
        (runArticles env exF (processArticle env exF files a).2 rest).1,
       (runArticles env exF (processArticle env exF files a).2 rest).2) := rfl

theorem runArticles_append (env : Env) (exF : List String)
    (l1 l2 : List ArticleRef) (files : Files) :
    runArticles env exF files (l1 ++ l2) =
      ((runArticles env exF files l1).1 ++
        (runArticles env exF (runArticles env exF files l1).2 l2).1,
       (runArticles env exF (runArticles env exF files l1).2 l2).2) := by
  induction l1 generalizing files with
  | nil => simp [runArticles_nil]
  | cons a rest ih => simp [runArticles_cons, ih]

/-- The run only appends: whatever it does, the starting directory is a
prefix of the final one, and each appended name is unique and fresh. -/
theorem runArticles_new_names (env : Env) (exF : List String) :
    ∀ (arts : List ArticleRef) (files : Files),
      ∃ δ : Files, (runArticles env exF files arts).2 = files ++ δ ∧
        (namesOf δ).Nodup ∧ ∀ n ∈ namesOf δ, n ∉ namesOf files := by
  intro arts
  induction arts with
  | nil =>
    intro files
    exact ⟨[], by simp [runArticles_nil], by simp [namesOf], by simp [namesOf]⟩
  | cons a rest ih =>
    intro files
    rcases processArticle_cases env exF files a with h | ⟨fn, c, h, hfresh⟩
    · obtain ⟨δ, hδ, hnd, hfr⟩ := ih files
      refine ⟨δ, ?_, hnd, hfr⟩
      rw [runArticles_cons, h]
      exact hδ
    · obtain ⟨δ, hδ, hnd, hfr⟩ := ih (files ++ [(fn, c)])
      refine ⟨(fn, c) :: δ, ?_, ?_, ?_⟩
      · rw [runArticles_cons, h, hδ]
        simp
      · refine List.nodup_cons.mpr ⟨fun hmem => ?_, hnd⟩
        exact hfr fn hmem (by simp [namesOf])
      · intro n hn
        have hn2 : n = fn ∨ n ∈ namesOf δ := by simpa [namesOf] using hn
        rcases hn2 with rfl | hn2
        · intro hc2
          exact absurd ((names_any_iff files n).mpr hc2) (by simp [hfresh])
        · intro hc2
          apply hfr n hn2
          have heq : namesOf (files ++ [(fn, c)]) = namesOf files ++ [fn] := by simp [namesOf]
          rw [heq]
          exact List.mem_append_left _ hc2

theorem runArticles_growth (env : Env) (exF : List String)
    (arts : List ArticleRef) (files : Files) :
    ∃ δ : Files, (runArticles env exF files arts).2 = files ++ δ := by
  obtain ⟨δ, hδ, _⟩ := runArticles_new_names env exF arts files
  exact ⟨δ, hδ⟩

/-! ## C2 — per-target failure isolation -/

/-- C2: an exception thrown while processing one target — during navigation
or extraction (`fetch`), conversion (`conv`), or the write (`writeErr`) —
is caught at that target's boundary: the target resolves to `failed`, the
directory is untouched by it, and every earlier and later target is
processed exactly as if the failing one were absent — the run terminates
normally.  The conversion and write cases carry the state conditions
under which the script reaches those calls at this point of the run (the
exact-filename check did not skip first). -/
theorem failure_isolation (env : Env) (exF : List String) (files : Files)
    (ts1 ts2 : List ArticleRef) (t : ArticleRef)
    (hs : skipByTitle exF t = false)
    (hraise :
      (∃ msg, env.fetch t.url = Except.error msg) ∨
      (∃ data msg, env.fetch t.url = Except.ok data ∧
        (runArticles env exF files ts1).2.any
          (fun p => p.1 == deriveFilename data) = false ∧
        env.conv data.contentHtml = Except.error msg) ∨
      (∃ data md msg, env.fetch t.url = Except.ok data ∧
        (runArticles env exF files ts1).2.any
          (fun p => p.1 == deriveFilename data) = false ∧
        env.conv data.contentHtml = Except.ok md ∧
        env.writeErr (deriveFilename data)
          ("# " ++ data.title ++ "\n\n" ++ md) = some msg)) :
    (runArticles env exF files (ts1 ++ t :: ts2)).1 =
      (runArticles env exF files ts1).1 ++
        Outcome.failed :: (runArticles env exF (runArticles env exF files ts1).2 ts2).1 ∧
    (runArticles env exF files (ts1 ++ t :: ts2)).2 =
      (runArticles env exF (runArticles env exF files ts1).2 ts2).2 := by
  have hfail : processArticle env exF (runArticles env exF files ts1).2 t =
      (Outcome.failed, (runArticles env exF files ts1).2) := by
    rcases hraise with ⟨msg, hf⟩ | ⟨data, msg, hf, hex, hc⟩ | ⟨data, md, msg, hf, hex, hc, hw⟩
    · exact processArticle_fetchErr hs hf
    · exact processArticle_convErr hs hf hex hc
    · exact processArticle_writeFail hs hf hex hc hw
  rw [runArticles_append, runArticles_cons, hfail]
  exact ⟨rfl, rfl⟩

/-- C2 witness: three runs of three targets in which only the second target
throws — during navigation, during conversion, and during the write
respectively; each time the first and third targets are still converted
and saved and the run completes. -/
theorem failure_isolation_witness :
    ((runArticles envFail [] []
        [{ url := "u1", title := "h1" }, { url := "u2", title := "h2" },
         { url := "u3", title := "h3" }]).1 =
      [Outcome.saved, Outcome.failed, Outcome.saved] ∧
    (runArticles envFail [] []
        [{ url := "u1", title := "h1" }, { url := "u2", title := "h2" },
         { url := "u3", title := "h3" }]).2 =
      [("20230101_Tu1.md", "# Tu1\n\nb"), ("20230101_Tu3.md", "# Tu3\n\nb")]) ∧
    (runArticles envConvFail [] []
        [{ url := "u1", title := "h1" }, { url := "u2", title := "h2" },
         { url := "u3", title := "h3" }]).1 =
      [Outcome.saved, Outcome.failed, Outcome.saved] ∧
    (runArticles envWriteFail [] []
        [{ url := "u1", title := "h1" }, { url := "u2", title := "h2" },
         { url := "u3", title := "h3" }]).1 =
      [Outcome.saved, Outcome.failed, Outcome.saved] := by
  have h1 := failure_isolation envFail [] [] [{ url := "u1", title := "h1" }]
    [{ url := "u3", title := "h3" }] { url := "u2", title := "h2" } rfl
    (Or.inl ⟨"boom", rfl⟩)
  have h2 := failure_isolation envConvFail [] [] [{ url := "u1", title := "h1" }]
    [{ url := "u3", title := "h3" }] { url := "u2", title := "h2" } rfl
    (Or.inr (Or.inl ⟨{ title := "Tu2", dateStr := "20230101", contentHtml := "u2" },
      "convboom", rfl, by decide, rfl⟩))
  have h3 := failure_isolation envWriteFail [] [] [{ url := "u1", title := "h1" }]
    [{ url := "u3", title := "h3" }] { url := "u2", title := "h2" } rfl
    (Or.inr (Or.inr ⟨{ title := "Tu2", dateStr := "20230101", contentHtml := "b" },
      "b", "writeboom", rfl, by decide, rfl, rfl⟩))
  exact ⟨⟨h1.1.trans (by decide), h1.2.trans (by decide)⟩,
    h2.1.trans (by decide), h3.1.trans (by decide)⟩

/-! ## C7 — explicit-URL override -/

/-- C7: every explicit URL becomes a target with the sentinel hint title
`"URL Target"`; for such a target the pre-fetch title-suffix skip never
fires (the URL is always visited), while the post-fetch exact-filename
skip still applies: a fetched record whose derived filename already
exists is skipped with no write. -/
theorem explicit_url_override (urls qs : List String) (disc : List ArticleRef)
    (hu : urls ≠ []) (env : Env) (exF : List String) (files : Files)
    (a : ArticleRef) (ha : a.title = "URL Target") :
    resolveArticles urls qs disc = urls.map (fun u => { url := u, title := "URL Target" }) ∧
    skipByTitle exF a = false ∧
    (processArticle env exF files a).1 ≠ Outcome.skippedByTitle ∧
    (∀ data : ArticleRecord, env.fetch a.url = Except.ok data →
      files.any (fun p => p.1 == deriveFilename data) = true →
      processArticle env exF files a = (Outcome.skippedByFilename, files)) := by
  have hskip : skipByTitle exF a = false := by
    unfold skipByTitle
    rw [ha]
    simp
  refine ⟨?_, hskip, ?_, ?_⟩
  · unfold resolveArticles
    rw [if_pos (by simpa using List.length_pos.mpr hu)]
  · cases hf : env.fetch a.url with
    | error msg => rw [processArticle_fetchErr hskip hf]; exact fun h => nomatch h
    | ok data =>
      cases hex : files.any (fun p => p.1 == deriveFilename data) with
      | true => rw [processArticle_fileSkip hskip hf hex]; exact fun h => nomatch h
      | false =>
        cases hc : env.conv data.contentHtml with
        | error msg => rw [processArticle_convErr hskip hf hex hc]; exact fun h => nomatch h
        | ok md =>
          cases hw : env.writeErr (deriveFilename data) ("# " ++ data.title ++ "\n\n" ++ md) with
          | some msg => rw [processArticle_writeFail hskip hf hex hc hw]; exact fun h => nomatch h
          | none => rw [processArticle_saves hskip hf hex hc hw]; exact fun h => nomatch h
  · intro data h2 h3
    exact processArticle_fileSkip hskip h2 h3

/-- C7 witness: an explicit-URL target whose fetched record collides with an
archived file is skipped by exact filename, not by title. -/
theorem explicit_url_override_witness :
    resolveArticles ["u9"] [] [] = [{ url := "u9", title := "URL Target" }] ∧
    skipByTitle ["20230101_T.md"] { url := "u9", title := "URL Target" } = false ∧
    processArticle env1 ["20230101_T.md"] [("20230101_T.md", "x")]
        { url := "u9", title := "URL Target" } =
      (Outcome.skippedByFilename, [("20230101_T.md", "x")]) := by
  obtain ⟨h1, h2, _, h4⟩ := explicit_url_override ["u9"] [] [] (by decide) env1
    ["20230101_T.md"] [("20230101_T.md", "x")] { url := "u9", title := "URL Target" } rfl
  exact ⟨h1, h2, h4 { title := "T", dateStr := "20230101", contentHtml := "b" } rfl (by decide)⟩

/-! ## C9 — degraded content is still persisted -/

/-- C9: a record with empty `contentMarkup` is still saved (no error): when
no skip applies, conversion of the empty body yields the empty string and
the written file is exactly the title heading, a blank line, and nothing
else — `"# {title}\n\n"`. -/
theorem degraded_content_saved (env : Env) (exF : List String) (files : Files)
    (a : ArticleRef) (data : ArticleRecord)
    (hskip : skipByTitle exF a = false)
    (hfetch : env.fetch a.url = Except.ok data)
    (hempty : data.contentHtml = "")
    (hconv : env.conv "" = Except.ok "")
    (hnew : files.any (fun p => p.1 == deriveFilename data) = false)
    (hwrite : env.writeErr (deriveFilename data) ("# " ++ data.title ++ "\n\n") = none) :
    processArticle env exF files a =
      (Outcome.saved, files ++ [(deriveFilename data, "# " ++ data.title ++ "\n\n")]) := by
  have hconv2 : env.conv data.contentHtml = Except.ok "" := by rw [hempty]; exact hconv
  have hcontent : "# " ++ data.title ++ "\n\n" ++ "" = "# " ++ data.title ++ "\n\n" :=
    string_append_empty _
  have hwrite2 : env.writeErr (deriveFilename data) ("# " ++ data.title ++ "\n\n" ++ "") = none := by
    rw [hcontent]; exact hwrite
  have h := processArticle_saves hskip hfetch hnew hconv2 hwrite2
  rw [hcontent] at h
  exact h

/-- C9 witness: an empty-content record is written as `"# T\n\n"`. -/
theorem degraded_content_saved_witness :
    processArticle env9 [] [] { url := "u", title := "Hint" } =
      (Outcome.saved, [("00000000_T.md", "# T\n\n")]) := by
  have h := degraded_content_saved env9 [] [] { url := "u", title := "Hint" }
    { title := "T", dateStr := "00000000", contentHtml := "" }
    (by decide) rfl rfl rfl (by decide) rfl
  exact h.trans (by decide)

/-! ## C10 — trailing `--url` token becomes a query term -/

/-- C10: a final `--url` token with nothing after it fails the
`i + 1 < args.length` guard, is not treated as a flag or an error, and
falls through to the query branch; a run invoked with only `--url`
therefore performs full discovery filtered by the term `"--url"`. -/
theorem trailing_url_flag_query :
    parseArgs ["--url"] = ([], ["--url"]) ∧
    parseArgs ["crawl", "--url"] = ([], ["crawl", "--url"]) ∧
    (∀ disc : List ArticleRef,
      resolveArticles (parseArgs ["--url"]).1 (parseArgs ["--url"]).2 disc =
        disc.filter (fun a => jsIncludes a.title "--url" || jsIncludes a.url "--url")) := by
  refine ⟨by decide, by decide, fun disc => ?_⟩
  show resolveArticles [] ["--url"] disc = _
  unfold resolveArticles
  simp

/-! ## C3 — within-run filename uniqueness -/

/-- C3: the files written by one run have pairwise distinct names, and none
of them overwrites a pre-existing file: the exact-filename existence check
runs immediately before each write against the live directory, so it sees
the files written earlier in the same run. -/
theorem run_filenames_unique (env : Env) (exF : List String) (files : Files)
    (arts : List ArticleRef) :
    ∃ δ : Files, (runArticles env exF files arts).2 = files ++ δ ∧
      (namesOf δ).Nodup ∧
      (namesOf δ).all (fun n => !((namesOf files).contains n)) = true := by
  obtain ⟨δ, h1, h2, h3⟩ := runArticles_new_names env exF arts files
  refine ⟨δ, h1, h2, ?_⟩
  rw [List.all_eq_true]
  intro n hn
  simpa using h3 n hn

/-! ## C1 — idempotence of the pipeline -/

theorem skipByTitle_mono {exF1 exF2 : List String} (a : ArticleRef)
    (hsub : ∀ x ∈ exF1, x ∈ exF2) (h : skipByTitle exF1 a = true) :
    skipByTitle exF2 a = true := by
  unfold skipByTitle at h ⊢
  rw [Bool.and_eq_true] at h ⊢
  obtain ⟨h1, h2⟩ := h
  refine ⟨h1, ?_⟩
  rw [List.any_eq_true] at h2 ⊢
  obtain ⟨f, hf, hff⟩ := h2
  exact ⟨f, hsub f hf, hff⟩

/-- Replaying a run whose snapshot and directory dominate a failure-free
first run: every target is skipped (by title or by exact filename) and the
directory never changes. -/
theorem second_run_skips (env : Env) (exF1 exF2 : List String)
    (hsub : ∀ x ∈ exF1, x ∈ exF2) :
    ∀ (arts : List ArticleRef) (f1 f2 : Files),
      (∀ n ∈ namesOf (runArticles env exF1 f1 arts).2, n ∈ namesOf f2) →
      Outcome.failed ∉ (runArticles env exF1 f1 arts).1 →
      (runArticles env exF2 f2 arts).2 = f2 ∧
        ∀ o ∈ (runArticles env exF2 f2 arts).1,
          o = Outcome.skippedByTitle ∨ o = Outcome.skippedByFilename := by
  intro arts
  induction arts with
  | nil =>
    intro f1 f2 _ _
    exact ⟨by rw [runArticles_nil], by rw [runArticles_nil]; intro o ho; cases ho⟩
  | cons a rest ih =>
    intro f1 f2 hnames hfail
    have hfail1 : (processArticle env exF1 f1 a).1 ≠ Outcome.failed := by
      intro he
      apply hfail
      rw [runArticles_cons, ← he]
      exact List.mem_cons_self _ _
    have hfailr :
        Outcome.failed ∉ (runArticles env exF1 (processArticle env exF1 f1 a).2 rest).1 := by
      intro hm
      apply hfail
      rw [runArticles_cons]
      exact List.mem_cons_of_mem _ hm
    have hnames' :
        ∀ n ∈ namesOf (runArticles env exF1 (processArticle env exF1 f1 a).2 rest).2,
          n ∈ namesOf f2 := by
      intro n hn
      apply hnames
      rw [runArticles_cons]
      exact hn
    -- the second run's head target is skipped and leaves the directory as is
    have hstep : processArticle env exF2 f2 a = (Outcome.skippedByTitle, f2) ∨
        processArticle env exF2 f2 a = (Outcome.skippedByFilename, f2) := by
      cases hst2 : skipByTitle exF2 a with
      | true => exact Or.inl (processArticle_titleSkip hst2)
      | false =>
        have hst1 : skipByTitle exF1 a = false := by
          cases hst1 : skipByTitle exF1 a with
          | false => rfl
          | true => rw [skipByTitle_mono a hsub hst1] at hst2; cases hst2
        cases hf : env.fetch a.url with
        | error msg =>
          exact absurd (congrArg Prod.fst (@processArticle_fetchErr env exF1 f1 a msg hst1 hf)) hfail1
        | ok data =>
          have hmem : deriveFilename data ∈ namesOf f2 := by
            cases hex1 : f1.any (fun p => p.1 == deriveFilename data) with
            | true =>
              have h12 : (processArticle env exF1 f1 a).2 = f1 := by
                rw [processArticle_fileSkip hst1 hf hex1]
              apply hnames'
              rw [h12]
              obtain ⟨δ, hδ⟩ := runArticles_growth env exF1 rest f1
              rw [hδ]
              have : deriveFilename data ∈ namesOf f1 := (names_any_iff _ _).mp hex1
              simp only [namesOf, List.map_append, List.mem_append]
              exact Or.inl this
            | false =>
              cases hc : env.conv data.contentHtml with
              | error msg =>
                exact absurd
                  (congrArg Prod.fst (@processArticle_convErr env exF1 f1 a data msg hst1 hf hex1 hc)) hfail1
              | ok md =>
                cases hw : env.writeErr (deriveFilename data)
                    ("# " ++ data.title ++ "\n\n" ++ md) with
                | some msg =>
                  exact absurd
                    (congrArg Prod.fst
                      (@processArticle_writeFail env exF1 f1 a data md msg hst1 hf hex1 hc hw)) hfail1
                | none =>
                  have h12 : (processArticle env exF1 f1 a).2 =
                      f1 ++ [(deriveFilename data, "# " ++ data.title ++ "\n\n" ++ md)] := by
                    rw [processArticle_saves hst1 hf hex1 hc hw]
                  apply hnames'
                  rw [h12]
                  obtain ⟨δ, hδ⟩ :=
                    runArticles_growth env exF1 rest
                      (f1 ++ [(deriveFilename data, "# " ++ data.title ++ "\n\n" ++ md)])
                  rw [hδ]
                  simp [namesOf]
          have hex2 : f2.any (fun p => p.1 == deriveFilename data) = true :=
            (names_any_iff _ _).mpr hmem
          exact Or.inr (processArticle_fileSkip hst2 hf hex2)
    obtain ⟨ihA, ihB⟩ := ih (processArticle env exF1 f1 a).2 f2 hnames' hfailr
    rcases hstep with h2 | h2 <;>
    · constructor
      · rw [runArticles_cons, h2]
        exact ihA
      · intro o ho
        rw [runArticles_cons, h2] at ho
        rcases List.mem_cons.mp ho with rfl | ho2
        · simp
        · exact ihB o ho2

/-- C1: running the pipeline a second time on an unchanged source set (same
environment, arguments and discovered refs) after a failure-free first run
writes nothing — the directory is unchanged and every target of the second
run resolves to a skip, by title suffix or by exact filename, before any
write occurs. -/
theorem pipeline_idempotent (env : Env) (urls qs : List String)
    (disc : List ArticleRef) (files0 : Files)
    (h : Outcome.failed ∉ (pipeline env urls qs disc files0).1) :
    (pipeline env urls qs disc (pipeline env urls qs disc files0).2).2 =
      (pipeline env urls qs disc files0).2 ∧
    ((pipeline env urls qs disc (pipeline env urls qs disc files0).2).1).all
      (fun o => o == Outcome.skippedByTitle || o == Outcome.skippedByFilename) = true := by
  have hgrow : ∃ δ, (pipeline env urls qs disc files0).2 = files0 ++ δ :=
    runArticles_growth env (namesOf files0) (resolveArticles urls qs disc) files0
  have hsub : ∀ x ∈ namesOf files0, x ∈ namesOf (pipeline env urls qs disc files0).2 := by
    obtain ⟨δ, hδ⟩ := hgrow
    intro x hx
    rw [hδ]
    simp only [namesOf, List.map_append, List.mem_append]
    exact Or.inl hx
  have hnames : ∀ n ∈ namesOf
      (runArticles env (namesOf files0) files0 (resolveArticles urls qs disc)).2,
      n ∈ namesOf (pipeline env urls qs disc files0).2 := fun n hn => hn
  obtain ⟨hA, hB⟩ := second_run_skips env (namesOf files0)
    (namesOf (pipeline env urls qs disc files0).2) hsub
    (resolveArticles urls qs disc) files0 (pipeline env urls qs disc files0).2 hnames h
  refine ⟨hA, ?_⟩
  rw [List.all_eq_true]
  intro o ho
  rcases hB o ho with rfl | rfl <;> simp

/-- C1 witness: one discovered article, saved on the first run, skipped by
exact filename on the second, with the directory unchanged. -/
theorem pipeline_idempotent_witness :
    (pipeline env1 [] [] [{ url := "u1", title := "Hint" }]
        (pipeline env1 [] [] [{ url := "u1", title := "Hint" }] []).2).2 =
      (pipeline env1 [] [] [{ url := "u1", title := "Hint" }] []).2 ∧
    ((pipeline env1 [] [] [{ url := "u1", title := "Hint" }]
        (pipeline env1 [] [] [{ url := "u1", title := "Hint" }] []).2).1).all
      (fun o => o == Outcome.skippedByTitle || o == Outcome.skippedByFilename) = true :=
  pipeline_idempotent env1 [] [] [{ url := "u1", title := "Hint" }] [] (by decide)

end NoteScrape
